import Mathlib

/-!
Shallow embedding of the path-planning core of the
Robot-Object-Avoidant-Path-Generation-Visualizer repository
(src/position.rs, src/obstacle.rs, src/robot.rs), together with
theorems settling the spec claims.

Numeric modelling: the source computes with `f32`; here every scalar is
an exact real number (`ℝ`), with `sqrt`, `sin`, `cos` the exact real
functions.  Rust integer/loop structure is mirrored with `ℕ` recursion,
and each bounded `while` loop is translated to a well-founded recursion
on the same bound that the source uses.  Because comparisons on `ℝ` are
not decidable, the definitions are placed in a `noncomputable section`
with classical `if`s; concrete evaluations in witnesses are carried out
by `simp`/`norm_num`.
-/

noncomputable section

open scoped Classical

/-- Position from src/position.rs: a triple of coordinates. -/
structure Position where
  x : ℝ
  y : ℝ
  z : ℝ

instance : Inhabited Position := ⟨⟨0, 0, 0⟩⟩

/-- src/position.rs: `ORIGIN`. -/
def ORIGIN : Position := ⟨0, 0, 0⟩

/-- src/position.rs: `Position::new`. -/
def Position.new (x y z : ℝ) : Position := ⟨x, y, z⟩

/-- src/position.rs: `Position::move_by` (mutation modelled as a pure update). -/
def Position.move_by (p : Position) (dx dy dz : ℝ) : Position :=
  ⟨p.x + dx, p.y + dy, p.z + dz⟩

/-- src/position.rs: `Position::scalar`. -/
def Position.scalar (p : Position) (s : ℝ) : Position :=
  ⟨p.x * s, p.y * s, p.z * s⟩

/-- src/position.rs: `Position::approx_equals`, with `EPSILON = 0.0001`. -/
def Position.approx_equals (p other : Position) : Prop :=
  |p.x - other.x| < 0.0001 ∧ |p.y - other.y| < 0.0001 ∧ |p.z - other.z| < 0.0001

/-- src/position.rs: `Position::distance_to` — planar (x,y) distance;
`powf(2.0)` on a real argument is exact squaring. -/
def Position.distance_to (p other : Position) : ℝ :=
  Real.sqrt ((p.x - other.x) ^ 2 + (p.y - other.y) ^ 2)

/-- src/position.rs: `Position::dot` — planar dot product. -/
def Position.dot (p other : Position) : ℝ :=
  p.x * other.x + p.y * other.y

/-- Machine epsilon of `f32` (`f32::EPSILON = 2⁻²³`), used by `norm2D`. -/
def F32_EPSILON : ℝ := 1 / 2 ^ 23

/-- Largest finite `f32` (`f32::MAX`), the initial `min_dist` in the
optimizer's fallback pass. -/
def F32_MAX : ℝ := (2 - 1 / 2 ^ 23) * 2 ^ 127

/-- src/position.rs: `Position::norm2D`. -/
def Position.norm2D (p : Position) : Position :=
  let norm := Real.sqrt (p.x ^ 2 + p.y ^ 2)
  if norm ≤ F32_EPSILON then ⟨0, 0, 0⟩
  else ⟨p.x / norm, p.y / norm, 0⟩

/-- src/position.rs: `Position::minus`. -/
def Position.minus (p other : Position) : Position :=
  ⟨p.x - other.x, p.y - other.y, p.z - other.z⟩

/-- PathPoint from src/robot.rs: position plus the scalar potential
("height") stored on the point. -/
structure PathPoint where
  position : Position
  height : ℝ

instance : Inhabited PathPoint := ⟨⟨⟨0, 0, 0⟩, 0⟩⟩

/-- src/robot.rs: `PathPoint::new` — z is 0 and height is 0. -/
def PathPoint.new (x y : ℝ) : PathPoint :=
  ⟨Position.new x y 0, 0⟩

/-- src/robot.rs: `PathPoint::from_position` — the position's z moves into
the height channel and the stored z becomes 0. -/
def PathPoint.from_position (position : Position) : PathPoint :=
  ⟨Position.new position.x position.y 0, position.z⟩

/-- src/robot.rs: `PathPoint::get_height`. -/
def PathPoint.get_height (p : PathPoint) : ℝ := p.height

/-- src/robot.rs: `PathPoint::set_height`. -/
def PathPoint.set_height (p : PathPoint) (height : ℝ) : PathPoint :=
  ⟨p.position, height⟩

/-- src/obstacle.rs: `DEFAULT_BUFFER_RADIUS`. -/
def DEFAULT_BUFFER_RADIUS : ℝ := 0.2

/-- src/obstacle.rs: `DEFAULT_ROBOT_RADIUS`. -/
def DEFAULT_ROBOT_RADIUS : ℝ := 0.5

/-- src/obstacle.rs: `EPS`, the degenerate-distance cutoff of the gradient. -/
def EPS : ℝ := 0.00005

/-- src/obstacle.rs: `ADJUST_RATE`, the gradient damping constant. -/
def ADJUST_RATE : ℝ := 0.001

/-- Obstacle from src/obstacle.rs.  The wrapped rendering model is reduced
to the two fields the planner reads: `center` (`model.config.position`) and
`scale` (`model.config.scale`). -/
structure Obstacle where
  center : Position
  scale : ℝ
  radius : ℝ
  calculation_radius : ℝ
  b : ℝ
  robot_radius : ℝ
  buffer_radius : ℝ

instance : Inhabited Obstacle := ⟨⟨⟨0, 0, 0⟩, 0, 0, 0, 0, 0, 0⟩⟩

/-- src/obstacle.rs: `Obstacle::new` — radius is half the model scale,
`calculation_radius = radius + robot_radius + buffer_radius`, and
`b = calculation_radius * π`. -/
def Obstacle.new (center : Position) (scale : ℝ) : Obstacle :=
  let radius := scale / 2
  let robot_radius := DEFAULT_ROBOT_RADIUS
  let buffer_radius := DEFAULT_BUFFER_RADIUS
  let calculation_radius := radius + robot_radius + buffer_radius
  let b := calculation_radius * Real.pi
  ⟨center, scale, radius, calculation_radius, b, robot_radius, buffer_radius⟩

/-- src/obstacle.rs: `Obstacle::get_radius`. -/
def Obstacle.get_radius (o : Obstacle) : ℝ := o.radius

/-- src/obstacle.rs: `Obstacle::cosine_field_function`. -/
def Obstacle.cosine_field_function (o : Obstacle) (pos : Position) : ℝ :=
  let dist := pos.distance_to o.center
  if dist > o.calculation_radius then 0
  else o.b / 2 * Real.cos (Real.pi * dist / o.b)

/-- src/obstacle.rs: `Obstacle::cosine_gradient_function`. -/
def Obstacle.cosine_gradient_function (o : Obstacle) (pos : Position) : ℝ × ℝ :=
  let dist := pos.distance_to o.center
  if dist > o.calculation_radius ∨ dist < EPS then (0, 0)
  else
    let dx := (pos.x - o.center.x) / dist
    let dy := (pos.y - o.center.y) / dist
    let magnitude := Real.pi / 2 * Real.sin (Real.pi * dist / o.b) * ADJUST_RATE
    (-magnitude * dx, -magnitude * dy)

/-- Robot from src/robot.rs.  The wrapped rendering model is reduced to
its `config.position` and `config.scale`. -/
structure Robot where
  position : Position
  scale : ℝ
  path_points : List PathPoint
  velocity_x : ℝ
  velocity_y : ℝ
  current_path_progress : ℝ
  target_speed : ℝ
  follow_path : Bool
  velocity_update_timer : ℝ

/-- src/robot.rs: `MIN_ADJUST_RATE`. -/
def MIN_ADJUST_RATE : ℝ := 0.0001

/-- src/robot.rs: `MAX_ITERATIONS`. -/
def MAX_ITERATIONS : ℕ := 2000

/-- src/robot.rs: `PATH_OPTIMIZATION_THRESHOLD`. -/
def PATH_OPTIMIZATION_THRESHOLD : ℝ := 0.001

/-- src/robot.rs: `Robot::catmull_rom_point` — the cubic blending of four
control points at parameter t. -/
def catmull_rom_point (p0 p1 p2 p3 : Position) (t : ℝ) : Position :=
  let t2 := t * t
  let t3 := t2 * t
  let b0 := 0.5 * (-t3 + 2 * t2 - t)
  let b1 := 0.5 * (3 * t3 - 5 * t2 + 2)
  let b2 := 0.5 * (-3 * t3 + 4 * t2 + t)
  let b3 := 0.5 * (t3 - t2)
  let x := b0 * p0.x + b1 * p1.x + b2 * p2.x + b3 * p3.x
  let y := b0 * p0.y + b1 * p1.y + b2 * p2.y + b3 * p3.y
  let z := b0 * p0.z + b1 * p1.z + b2 * p2.z + b3 * p3.z
  Position.new x y z

/-- src/robot.rs: `Robot::catmull_rom_spline` — sample the spline over
`path_points` at normalized parameter t.  `floor() as usize` is modelled
by `Int.toNat ∘ Int.floor` (both saturate negatives to 0), and the
`local_t` is computed from the unclamped index exactly as in the source. -/
def Robot.catmull_rom_spline (r : Robot) (t : ℝ) : ℝ × ℝ :=
  if r.path_points.length < 4 then
    if r.path_points.isEmpty then (0, 0)
    else
      let pos := (r.path_points.getD 0 default).position
      (pos.x, pos.y)
  else
    let num_segments := r.path_points.length - 3
    let segment_t := t * (num_segments : ℝ)
    let segment_idx := (⌊segment_t⌋).toNat
    let local_t := segment_t - (segment_idx : ℝ)
    let segment_idx2 := min segment_idx (num_segments - 1)
    let p0 := (r.path_points.getD segment_idx2 default).position
    let p1 := (r.path_points.getD (segment_idx2 + 1) default).position
    let p2 := (r.path_points.getD (segment_idx2 + 2) default).position
    let p3 := (r.path_points.getD (segment_idx2 + 3) default).position
    let point := catmull_rom_point p0 p1 p2 p3 local_t
    (point.x, point.y)

/-- Result of the velocity computation inside `follow_path_with_dt`
(src/robot.rs lines 496-537): the consumed parameter increment `ci`, the
forward vector `(xv, yv)` and its length `d`. -/
structure FollowCalc where
  ci : ℝ
  xv : ℝ
  yv : ℝ
  d : ℝ

/-- src/robot.rs: the forward-search `while` loop of `follow_path_with_dt`
(lines 511-536): step `ci` by 0.001 and resample until the distance from
the current position reaches `target_distance`, up to 1000 iterations,
breaking early when `current_path_progress + ci` reaches 1. -/
def follow_search (r : Robot) (current : ℝ × ℝ) (target_distance : ℝ)
    (d xv yv ci : ℝ) (iteration_count : ℕ) : FollowCalc :=
  if d < target_distance ∧ iteration_count < 1000 then
    let ci2 := ci + 0.001
    let focus_point := r.catmull_rom_spline (r.current_path_progress + ci2)
    let xv2 := focus_point.1 - current.1
    let yv2 := focus_point.2 - current.2
    let d2 := Real.sqrt (xv2 * xv2 + yv2 * yv2)
    if r.current_path_progress + ci2 ≥ 1 then ⟨ci2, xv2, yv2, d2⟩
    else follow_search r current target_distance d2 xv2 yv2 ci2 (iteration_count + 1)
  else ⟨ci, xv, yv, d⟩
termination_by 1000 - iteration_count
decreasing_by omega

/-- src/robot.rs: the body of `follow_path_with_dt` that computes
`(ci, xv, yv, d)` (lines 496-537), before the division `xv /= d`. -/
def Robot.follow_calc (r : Robot) (dt : ℝ) : FollowCalc :=
  let current_position := r.catmull_rom_spline r.current_path_progress
  let target_distance := r.target_speed * dt
  if target_distance ≤ 0.001 then
    let ci := 0.001
    let focus_point := r.catmull_rom_spline (r.current_path_progress + ci)
    let xv := focus_point.1 - current_position.1
    let yv := focus_point.2 - current_position.2
    ⟨ci, xv, yv, Real.sqrt (xv * xv + yv * yv)⟩
  else
    follow_search r current_position target_distance 0 0 0 0 0

/-- src/robot.rs: `Robot::follow_path_with_dt`.  Early-out when progress
is already ≥ 1; otherwise, when the control timer has accumulated 0.02s,
compute the forward vector, divide by its length, set the velocity,
advance the progress and clamp at 1. -/
def Robot.follow_path_with_dt (r : Robot) (dt : ℝ) : Robot :=
  if r.current_path_progress ≥ 1 then
    { r with follow_path := false, velocity_x := 0, velocity_y := 0 }
  else if r.velocity_update_timer ≥ 0.02 then
    let c := r.follow_calc dt
    let xv := c.xv / c.d
    let yv := c.yv / c.d
    let r2 := { r with velocity_x := xv * r.target_speed, velocity_y := yv * r.target_speed }
    let progress := r.current_path_progress + c.ci
    if progress ≥ 1 then
      { r2 with current_path_progress := 1, follow_path := false,
                velocity_x := 0, velocity_y := 0, velocity_update_timer := 0 }
    else
      { r2 with current_path_progress := progress, velocity_update_timer := 0 }
  else r

/-- src/robot.rs: the `while` loop of `clean_path` (lines 427-436),
parameterized by the current scan index `i`.  A point closer than the
threshold to its predecessor is removed (only while more than 12 points
remain); the scan runs over interior indices only. -/
def clean_go (threshold : ℝ) (pts : List PathPoint) (i : ℕ) : List PathPoint :=
  if i < pts.length - 1 then
    if pts.length ≤ 12 then pts
    else if i = 0 then clean_go threshold pts 1
    else if (pts.getD i default).position.distance_to (pts.getD (i - 1) default).position
        < threshold then
      clean_go threshold (pts.eraseIdx i) i
    else clean_go threshold pts (i + 1)
  else pts
termination_by pts.length - i
decreasing_by
  · omega
  · have := pts.length_eraseIdx_of_lt (i := i) (by omega)
    omega
  · omega

/-- src/robot.rs: `Robot::clean_path` — remove points closer together
than 1.3 times the original step distance. -/
def clean_path (original_step_distance : ℝ) (pts : List PathPoint) : List PathPoint :=
  clean_go (original_step_distance * 1.3) pts 1

/-- src/robot.rs: the `is_colinear_to_path` closure of
`get_points_of_curvature` (lines 453-456): false for a near-zero vector,
otherwise compares the cosine similarity with `v_path` against 1 - ε. -/
def is_colinear_to_path (v_path v : Position) : Prop :=
  if v.approx_equals ORIGIN then False
  else v.dot v_path / (v.distance_to ORIGIN * v_path.distance_to ORIGIN) > 0.999999

/-- src/robot.rs: the window-expansion `while` loop of
`get_points_of_curvature` (lines 461-466): grow `remove_count` while the
point `remove_count` before the center stays within the distance bound
and both window guards hold. -/
def curvature_window (pts : List PathPoint) (center : Position) (bound : ℝ)
    (i : ℕ) (dist : ℝ) (remove_count : ℕ) : ℕ :=
  if dist < bound ∧ i + remove_count < pts.length ∧ 0 < i - remove_count then
    let dist2 := (pts.getD (i - remove_count) default).position.distance_to center
    if dist2 < bound ∧ i + remove_count < pts.length ∧ 0 < i - remove_count then
      curvature_window pts center bound i dist2 (remove_count + 1)
    else remove_count
  else remove_count
termination_by i - remove_count
decreasing_by omega

/-- src/robot.rs: the outer `while` loop of `get_points_of_curvature`
(lines 445-476), accumulating the marked indices.  The source's dead
`if i == 0 {{ i = 2; }}` branch is kept. -/
def curvature_go (pts : List PathPoint) (scale : ℝ) (i0 : ℕ) (marks : List ℕ) : List ℕ :=
  if i0 < pts.length - 2 then
    let pos_i := (pts.getD 0 default).position
    let i := if i0 = 0 then 2 else i0
    let v1 := ((pts.getD (i - 1) default).position).minus pos_i
    let v2 := ((pts.getD i default).position).minus pos_i
    let v3 := ((pts.getD (i + 1) default).position).minus pos_i
    let v_path := ((pts.getD (pts.length - 1) default).position).minus pos_i
    if is_colinear_to_path v_path v2 ∧
        Xor' (is_colinear_to_path v_path v1) (is_colinear_to_path v_path v3) ∧
        i < pts.length - 2 then
      let center := (pts.getD i default).position
      let remove_count := curvature_window pts center (scale * 0.25) i 0 1
      let start_idx := i - remove_count
      let end_idx := min (i + remove_count) (pts.length - 1)
      curvature_go pts scale (end_idx + 1)
        (marks ++ List.range' start_idx (end_idx + 1 - start_idx))
    else curvature_go pts scale (i0 + 1) marks
  else marks
termination_by pts.length - i0
decreasing_by
  · simp only [min_def]
    split_ifs <;> omega
  · omega

/-- src/robot.rs: the removal phase of `get_points_of_curvature`
(lines 479-481): remove the marked indices in reverse push order. -/
def remove_marks (pts : List PathPoint) (marks : List ℕ) : List PathPoint :=
  marks.reverse.foldl (fun l idx => l.eraseIdx idx) pts

/-- src/robot.rs: `Robot::get_points_of_curvature` — prune interior
points around transitions into/out of travel colinear with the overall
start-to-end chord (`scale` is `model.config.scale`). -/
def get_points_of_curvature (scale : ℝ) (pts : List PathPoint) : List PathPoint :=
  remove_marks pts (curvature_go pts scale 2 [])

/-- src/robot.rs: `Robot::is_path_optimized` (lines 268-285) as a
predicate over the interior points: each must have height at most the
threshold and be no closer than `radius + 0.1` to any obstacle center. -/
def is_path_optimized (obstacles : List Obstacle) (pts : List PathPoint) : Prop :=
  ∀ i, 0 < i → i + 1 < pts.length →
    ¬((pts.getD i default).get_height > PATH_OPTIMIZATION_THRESHOLD) ∧
    ∀ o ∈ obstacles,
      ¬((pts.getD i default).position.distance_to o.center < o.get_radius + 0.1)

/-- src/robot.rs: the per-point body of
`optimize_path_single_iteration` (lines 360-415).  The source's
`diff.norm2D() > 0.001` compares the normalized vector against a scalar
(no such ordering exists on `Position`); it is modelled as comparing the
2D magnitude of `diff`, matching the analogous `dist > 0.001` guard of
the fallback pass. -/
def single_iter_step (obstacles : List Obstacle) (pts : List PathPoint) (i : ℕ) :
    List PathPoint :=
  let point := pts.getD i default
  let too_close_to_obstacle :=
    ∃ o ∈ obstacles, point.position.distance_to o.center < o.get_radius + 0.1
  if point.get_height > PATH_OPTIMIZATION_THRESHOLD ∨ too_close_to_obstacle then
    let total_delta := obstacles.foldl (fun td o =>
      let gradient := o.cosine_gradient_function point.position
      let dist := point.position.distance_to o.center
      let min_safe_distance := o.get_radius + 0.1
      if dist < min_safe_distance then
        let diff := point.position.minus o.center
        if Real.sqrt (diff.x ^ 2 + diff.y ^ 2) > 0.001 then
          td.minus ((diff.norm2D).scalar 0.5)
        else td
      else
        td.minus (Position.new gradient.1 gradient.2 0)) (Position.new 0 0 0)
    let total_delta2 :=
      if |total_delta.x| < MIN_ADJUST_RATE ∧ |total_delta.y| < MIN_ADJUST_RATE then
        { total_delta with
          x := if total_delta.x ≠ 0 then Real.sign total_delta.x * MIN_ADJUST_RATE
               else total_delta.x,
          y := if total_delta.y ≠ 0 then Real.sign total_delta.y * MIN_ADJUST_RATE
               else total_delta.y }
      else total_delta
    let newpos := point.position.move_by total_delta2.x total_delta2.y 0
    let height := obstacles.foldl (fun h o => h + o.cosine_field_function newpos) 0
    pts.set i ((⟨newpos, point.height⟩ : PathPoint).set_height height)
  else pts

/-- src/robot.rs: `Robot::optimize_path_single_iteration` — one
relaxation pass over the interior points (the returned `bool` is unused
at the call site and is dropped). -/
def optimize_path_single_iteration (obstacles : List Obstacle) (pts : List PathPoint) :
    List PathPoint :=
  if pts.length ≤ 2 then pts
  else (List.range' 1 (pts.length - 2)).foldl (single_iter_step obstacles) pts

/-- src/robot.rs: the relaxation `while` loop of `optimize_path`
(lines 298-302), returning the final points together with the number of
iterations performed. -/
def optimize_loop (obstacles : List Obstacle) (original_step_distance : ℝ)
    (pts : List PathPoint) (iterations : ℕ) : List PathPoint × ℕ :=
  if ¬ is_path_optimized obstacles pts ∧ iterations < MAX_ITERATIONS then
    optimize_loop obstacles original_step_distance
      (clean_path original_step_distance (optimize_path_single_iteration obstacles pts))
      (iterations + 1)
  else (pts, iterations)
termination_by MAX_ITERATIONS - iterations
decreasing_by omega

/-- src/robot.rs: the nearest-obstacle scan of the fallback pass
(lines 313-322): fold over the enumerated obstacles keeping the index of
the minimum distance, starting from `(0, f32::MAX)`. -/
def nearest_obstacle_idx (obstacles : List Obstacle) (pos : Position) : ℕ :=
  (obstacles.enum.foldl (fun acc io =>
    if pos.distance_to io.2.center < acc.2 then (io.1, pos.distance_to io.2.center)
    else acc) (0, F32_MAX)).1

/-- src/robot.rs: the per-point body of the non-convergence fallback pass
of `optimize_path` (lines 311-347): push a still-unsafe point half a unit
radially away from its nearest obstacle and recompute its height. -/
def fallback_step (obstacles : List Obstacle) (pts : List PathPoint) (i : ℕ) :
    List PathPoint :=
  let p := pts.getD i default
  if p.get_height > PATH_OPTIMIZATION_THRESHOLD then
    let idx := nearest_obstacle_idx obstacles p.position
    if 0 < obstacles.length then
      let obstacle_pos := (obstacles.getD idx default).center
      let dx := p.position.x - obstacle_pos.x
      let dy := p.position.y - obstacle_pos.y
      let dist := Real.sqrt (dx * dx + dy * dy)
      if dist > 0.001 then
        let nx := dx / dist
        let ny := dy / dist
        let newpos := p.position.move_by (nx * 0.5) (ny * 0.5) 0
        let height := obstacles.foldl (fun h o => h + o.cosine_field_function newpos) 0
        pts.set i ((⟨newpos, p.height⟩ : PathPoint).set_height height)
      else pts
    else pts
  else pts

/-- src/robot.rs: the whole fallback pass of `optimize_path`, over all
interior indices. -/
def fallback_pass (obstacles : List Obstacle) (pts : List PathPoint) : List PathPoint :=
  (List.range' 1 (pts.length - 2)).foldl (fallback_step obstacles) pts

/-- src/robot.rs: `Robot::optimize_path` on the path-point list,
returning the resulting points and the number of relaxation iterations:
run the bounded relaxation loop, zero the `z` coordinate of every point,
then apply the fallback pass if the iteration budget was exhausted
without convergence. -/
def optimize_path (obstacles : List Obstacle) (pts : List PathPoint) :
    List PathPoint × ℕ :=
  if pts.length ≤ 2 then (pts, 0)
  else
    let original_step_distance :=
      (pts.getD 0 default).position.distance_to (pts.getD 1 default).position
    let res := optimize_loop obstacles original_step_distance pts 0
    let zeroed := res.1.map fun point =>
      { point with position := { point.position with z := 0 } }
    if res.2 ≥ MAX_ITERATIONS ∧ ¬ is_path_optimized obstacles zeroed then
      (fallback_pass obstacles zeroed, res.2)
    else (zeroed, res.2)

/-- src/robot.rs: the seeding loop of `generate_path` (lines 148-161):
each new point steps by `(dx, dy)` from the previous one and its height
is the summed obstacle potential at its position. -/
def seed_go (dx dy : ℝ) (obstacles : List Obstacle) (prev : PathPoint) (n : ℕ) :
    List PathPoint :=
  if n = 0 then []
  else
    let base := PathPoint.new (prev.position.x + dx) (prev.position.y + dy)
    let p := { base with
      height := obstacles.foldl (fun h o => h + o.cosine_field_function base.position) 0 }
    p :: seed_go dx dy obstacles p (n - 1)
termination_by n
decreasing_by omega

/-- src/robot.rs: the seeded path of `generate_path` (lines 139-163):
the start point, `segments_count` linearly interpolated points, then the
target appended exactly. -/
def gen_seeded (start target : Position) (segments_count : ℕ)
    (obstacles : List Obstacle) : List PathPoint :=
  let dx := (target.x - start.x) / (segments_count : ℝ)
  let dy := (target.y - start.y) / (segments_count : ℝ)
  PathPoint.from_position start ::
    (seed_go dx dy obstacles (PathPoint.from_position start) segments_count ++
      [PathPoint.from_position target])

/-- src/robot.rs: the per-step distance `(dx*dx + dy*dy).sqrt()` of
`generate_path` (line 165). -/
def gen_step_distance (start target : Position) (segments_count : ℕ) : ℝ :=
  let dx := (target.x - start.x) / (segments_count : ℝ)
  let dy := (target.y - start.y) / (segments_count : ℝ)
  Real.sqrt (dx * dx + dy * dy)

/-- src/robot.rs: the seeded path after the `clean_path` call of
`generate_path` (line 166). -/
def gen_cleaned (start target : Position) (segments_count : ℕ)
    (obstacles : List Obstacle) : List PathPoint :=
  clean_path (gen_step_distance start target segments_count)
    (gen_seeded start target segments_count obstacles)

/-- src/robot.rs: the path and relaxation-iteration count after the
`optimize_path` call of `generate_path` (line 167). -/
def gen_optimized (start target : Position) (segments_count : ℕ)
    (obstacles : List Obstacle) : List PathPoint × ℕ :=
  optimize_path obstacles (gen_cleaned start target segments_count obstacles)

/-- src/robot.rs: `Robot::generate_path` — reset the path progress, seed
the straight-line path, clean it with the per-step distance, optimize it
against the obstacles, then prune points of curvature. -/
def Robot.generate_path (r : Robot) (target_position : Position)
    (segments_count : ℕ) (obstacles : List Obstacle) : Robot :=
  { r with
    current_path_progress := 0
    path_points := get_points_of_curvature r.scale
      (gen_optimized r.position target_position segments_count obstacles).1 }

/-! ## Helper evaluation lemmas -/

lemma distance_to_def (p q : Position) :
    p.distance_to q = Real.sqrt ((p.x - q.x) ^ 2 + (p.y - q.y) ^ 2) := rfl

lemma Obstacle.new_center (c : Position) (s : ℝ) : (Obstacle.new c s).center = c := rfl

lemma Obstacle.new_calculation_radius (c : Position) (s : ℝ) :
    (Obstacle.new c s).calculation_radius = s / 2 + 0.5 + 0.2 := rfl

lemma Obstacle.new_b (c : Position) (s : ℝ) :
    (Obstacle.new c s).b = (s / 2 + 0.5 + 0.2) * Real.pi := rfl

/-! ## Claim C7: compact support of the potential and the gradient -/

/-- Claim C7 (confirmed).  For every obstacle and every point whose planar
distance from the obstacle's center is strictly greater than
`calculationRadius`, `cosine_field_function` returns exactly 0 and
`cosine_gradient_function` returns exactly (0, 0). -/
theorem claim_C7 (o : Obstacle) (p : Position)
    (h : o.calculation_radius < p.distance_to o.center) :
    o.cosine_field_function p = 0 ∧ o.cosine_gradient_function p = (0, 0) := by
  constructor
  · simp only [Obstacle.cosine_field_function]
    rw [if_pos h]
  · simp only [Obstacle.cosine_gradient_function]
    rw [if_pos (Or.inl h)]

/-- Concrete instantiation of `claim_C7`: an obstacle of scale 2 at the
origin has `calculationRadius = 1.7`, and the point (5, 0) is at planar
distance 5 > 1.7. -/
theorem claim_C7_witness :
    (Obstacle.new ⟨0, 0, 0⟩ 2).calculation_radius <
      Position.distance_to ⟨5, 0, 0⟩ (Obstacle.new ⟨0, 0, 0⟩ 2).center ∧
    ((Obstacle.new ⟨0, 0, 0⟩ 2).cosine_field_function ⟨5, 0, 0⟩ = 0 ∧
      (Obstacle.new ⟨0, 0, 0⟩ 2).cosine_gradient_function ⟨5, 0, 0⟩ = (0, 0)) := by
  have hd : Position.distance_to ⟨5, 0, 0⟩ (Obstacle.new ⟨0, 0, 0⟩ 2).center = 5 := by
    rw [Obstacle.new_center, distance_to_def]
    rw [show ((5 : ℝ) - 0) ^ 2 + (0 - 0) ^ 2 = 5 ^ 2 by norm_num]
    exact Real.sqrt_sq (by norm_num)
  have h : (Obstacle.new ⟨0, 0, 0⟩ 2).calculation_radius <
      Position.distance_to ⟨5, 0, 0⟩ (Obstacle.new ⟨0, 0, 0⟩ 2).center := by
    rw [hd, Obstacle.new_calculation_radius]; norm_num
  exact ⟨h, claim_C7 _ _ h⟩

/-! ## Claim C8: degenerate-distance cutoff of the gradient -/

/-- Claim C8 (confirmed).  For every obstacle and every point whose planar
distance from the obstacle's center is below `EPS` (including a point
exactly at the center), `cosine_gradient_function` returns (0, 0) through
the early guard, so the division by the distance is never reached. -/
theorem claim_C8 (o : Obstacle) (p : Position)
    (h : p.distance_to o.center < EPS) :
    o.cosine_gradient_function p = (0, 0) := by
  simp only [Obstacle.cosine_gradient_function]
  rw [if_pos (Or.inr h)]

/-- Concrete instantiation of `claim_C8`: a point exactly at the
obstacle's center has planar distance 0 < EPS. -/
theorem claim_C8_witness :
    Position.distance_to ⟨0, 0, 0⟩ (Obstacle.new ⟨0, 0, 0⟩ 2).center < EPS ∧
    (Obstacle.new ⟨0, 0, 0⟩ 2).cosine_gradient_function ⟨0, 0, 0⟩ = (0, 0) := by
  have h : Position.distance_to ⟨0, 0, 0⟩ (Obstacle.new ⟨0, 0, 0⟩ 2).center < EPS := by
    rw [Obstacle.new_center, distance_to_def]
    rw [show ((0 : ℝ) - 0) ^ 2 + (0 - 0) ^ 2 = 0 by norm_num, Real.sqrt_zero, EPS]
    norm_num
  exact ⟨h, claim_C8 _ _ h⟩

/-! ## Claim C3: direction and magnitude of the gradient -/

/-- Claim C3 as stated is false: the returned vector points from the
point toward the obstacle's center, not away from it.  At the concrete
obstacle `Obstacle.new ⟨0,0,0⟩ 2` (`calculationRadius = 1.7`) and point
(1, 0, 0) (planar distance 1, inside `[EPS, 1.7]`), the first component
returned by the code is negative, while the vector claimed by the spec —
magnitude `(π/2)·sin(π·d/fieldScale)·adjustRate` times the unit vector
from the center to the point — has a strictly positive first component. -/
theorem claim_C3_counterexample :
    ((Obstacle.new ⟨0, 0, 0⟩ 2).cosine_gradient_function ⟨1, 0, 0⟩).1 < 0 ∧
    0 < Real.pi / 2 *
        Real.sin (Real.pi * Position.distance_to ⟨1, 0, 0⟩ (Obstacle.new ⟨0, 0, 0⟩ 2).center /
          (Obstacle.new ⟨0, 0, 0⟩ 2).b) * ADJUST_RATE *
        (((1 : ℝ) - (Obstacle.new ⟨0, 0, 0⟩ 2).center.x) /
          Position.distance_to ⟨1, 0, 0⟩ (Obstacle.new ⟨0, 0, 0⟩ 2).center) := by
  have hd : Position.distance_to ⟨1, 0, 0⟩ (Obstacle.new ⟨0, 0, 0⟩ 2).center = 1 := by
    rw [Obstacle.new_center, distance_to_def]
    rw [show ((1 : ℝ) - 0) ^ 2 + (0 - 0) ^ 2 = 1 by norm_num]
    exact Real.sqrt_one
  have harg : Real.pi * 1 / (Obstacle.new ⟨0, 0, 0⟩ 2).b = 1 / 1.7 := by
    rw [Obstacle.new_b]
    rw [show ((2 : ℝ) / 2 + 0.5 + 0.2) = 1.7 by norm_num]
    field_simp [Real.pi_ne_zero]
    ring
  have hsin : 0 < Real.sin (Real.pi * 1 / (Obstacle.new ⟨0, 0, 0⟩ 2).b) := by
    rw [harg]
    apply Real.sin_pos_of_pos_of_lt_pi
    · norm_num
    · calc (1 : ℝ) / 1.7 < 3 := by norm_num
        _ < Real.pi := Real.pi_gt_three
  have hmag : 0 < Real.pi / 2 *
      Real.sin (Real.pi * 1 / (Obstacle.new ⟨0, 0, 0⟩ 2).b) * ADJUST_RATE := by
    apply mul_pos (mul_pos (by positivity) hsin)
    rw [ADJUST_RATE]; norm_num
  constructor
  · simp only [Obstacle.cosine_gradient_function, hd]
    rw [if_neg]
    · simp only
      rw [Obstacle.new_center]
      simp only
      have : (1 : ℝ) - 0 = 1 := by norm_num
      rw [this]
      nlinarith [hmag]
    · rw [Obstacle.new_calculation_radius, EPS]
      push_neg
      constructor <;> norm_num
  · rw [hd, Obstacle.new_center]
    simp only
    nlinarith [hmag]

/-- Claim C3, amended: for every obstacle (with the structural invariant
`b = calculationRadius · π` maintained by `Obstacle::new` and
`set_radius`) and every point whose planar distance d from the center
satisfies `EPS ≤ d ≤ calculationRadius`, the gradient function returns
the vector of magnitude `(π/2)·sin(π·d/fieldScale)·adjustRate` directed
along the unit vector from the point TOWARD the obstacle's center (the
direction of increasing potential); the direction stated by the claim is
reversed.  The last conjunct checks that the direction factor is a unit
vector, and the first that the magnitude factor is strictly positive. -/
theorem claim_C3_amended (o : Obstacle) (p : Position)
    (hb : o.b = o.calculation_radius * Real.pi)
    (h1 : EPS ≤ p.distance_to o.center)
    (h2 : p.distance_to o.center ≤ o.calculation_radius) :
    0 < Real.pi / 2 * Real.sin (Real.pi * p.distance_to o.center / o.b) * ADJUST_RATE ∧
    o.cosine_gradient_function p =
      (Real.pi / 2 * Real.sin (Real.pi * p.distance_to o.center / o.b) * ADJUST_RATE *
        ((o.center.x - p.x) / p.distance_to o.center),
       Real.pi / 2 * Real.sin (Real.pi * p.distance_to o.center / o.b) * ADJUST_RATE *
        ((o.center.y - p.y) / p.distance_to o.center)) ∧
    ((o.center.x - p.x) / p.distance_to o.center) ^ 2 +
      ((o.center.y - p.y) / p.distance_to o.center) ^ 2 = 1 := by
  have heps : (0 : ℝ) < EPS := by rw [EPS]; norm_num
  have hd0 : 0 < p.distance_to o.center := lt_of_lt_of_le heps h1
  have hcr : 0 < o.calculation_radius := lt_of_lt_of_le hd0 h2
  have harg : Real.pi * p.distance_to o.center / o.b =
      p.distance_to o.center / o.calculation_radius := by
    rw [hb]
    field_simp [Real.pi_ne_zero, ne_of_gt hcr]
    ring
  have hsin : 0 < Real.sin (Real.pi * p.distance_to o.center / o.b) := by
    rw [harg]
    apply Real.sin_pos_of_pos_of_lt_pi
    · positivity
    · have hle : p.distance_to o.center / o.calculation_radius ≤ 1 :=
        (div_le_one hcr).mpr h2
      calc p.distance_to o.center / o.calculation_radius ≤ 1 := hle
        _ < 3 := by norm_num
        _ < Real.pi := Real.pi_gt_three
  have hmag : 0 < Real.pi / 2 * Real.sin (Real.pi * p.distance_to o.center / o.b) *
      ADJUST_RATE := by
    apply mul_pos (mul_pos (by positivity) hsin)
    rw [ADJUST_RATE]; norm_num
  refine ⟨hmag, ?_, ?_⟩
  · simp only [Obstacle.cosine_gradient_function]
    rw [if_neg]
    · simp only [Prod.mk.injEq]
      constructor <;> ring
    · push_neg
      exact ⟨h2, h1⟩
  · have hsq : p.distance_to o.center ^ 2 = (p.x - o.center.x) ^ 2 + (p.y - o.center.y) ^ 2 := by
      rw [distance_to_def]
      exact Real.sq_sqrt (by positivity)
    have hne : p.distance_to o.center ≠ 0 := ne_of_gt hd0
    field_simp
    nlinarith [hsq]

/-- Concrete instantiation of `claim_C3_amended` at the obstacle
`Obstacle.new ⟨0,0,0⟩ 2` and the point (1, 0, 0). -/
theorem claim_C3_amended_witness :
    ((Obstacle.new ⟨0, 0, 0⟩ 2).b =
      (Obstacle.new ⟨0, 0, 0⟩ 2).calculation_radius * Real.pi) ∧
    EPS ≤ Position.distance_to ⟨1, 0, 0⟩ (Obstacle.new ⟨0, 0, 0⟩ 2).center ∧
    Position.distance_to ⟨1, 0, 0⟩ (Obstacle.new ⟨0, 0, 0⟩ 2).center ≤
      (Obstacle.new ⟨0, 0, 0⟩ 2).calculation_radius ∧
    0 < Real.pi / 2 *
      Real.sin (Real.pi * Position.distance_to ⟨1, 0, 0⟩ (Obstacle.new ⟨0, 0, 0⟩ 2).center /
        (Obstacle.new ⟨0, 0, 0⟩ 2).b) * ADJUST_RATE := by
  have hd : Position.distance_to ⟨1, 0, 0⟩ (Obstacle.new ⟨0, 0, 0⟩ 2).center = 1 := by
    rw [Obstacle.new_center, distance_to_def]
    rw [show ((1 : ℝ) - 0) ^ 2 + (0 - 0) ^ 2 = 1 by norm_num]
    exact Real.sqrt_one
  have hb : (Obstacle.new ⟨0, 0, 0⟩ 2).b =
      (Obstacle.new ⟨0, 0, 0⟩ 2).calculation_radius * Real.pi := rfl
  have h1 : EPS ≤ Position.distance_to ⟨1, 0, 0⟩ (Obstacle.new ⟨0, 0, 0⟩ 2).center := by
    rw [hd, EPS]; norm_num
  have h2 : Position.distance_to ⟨1, 0, 0⟩ (Obstacle.new ⟨0, 0, 0⟩ 2).center ≤
      (Obstacle.new ⟨0, 0, 0⟩ 2).calculation_radius := by
    rw [hd, Obstacle.new_calculation_radius]; norm_num
  exact ⟨hb, h1, h2, (claim_C3_amended _ _ hb h1 h2).1⟩

/-! ## Claim C10: generate_path resets the path progress -/

/-- Claim C10 (confirmed).  Every call to `generate_path` resets
`current_path_progress` to 0 (none of the subsequent cleaning,
optimization or pruning steps touches it), so following always restarts
from the beginning of the newly generated path. -/
theorem claim_C10 (r : Robot) (target_position : Position) (segments_count : ℕ)
    (obstacles : List Obstacle) :
    (r.generate_path target_position segments_count obstacles).current_path_progress = 0 := by
  simp only [Robot.generate_path]

/-! ## Claim C1: spline samples at parameters 0 and 1 -/

lemma catmull_rom_point_zero (p0 p1 p2 p3 : Position) :
    catmull_rom_point p0 p1 p2 p3 0 = ⟨p1.x, p1.y, p1.z⟩ := by
  simp only [catmull_rom_point, Position.new, Position.mk.injEq]
  norm_num

/-- With fewer than 4 (and at least 1) path points, the spline sampler
returns the first waypoint at every parameter. -/
lemma spline_const_of_short (r : Robot) (h1 : 1 ≤ r.path_points.length)
    (h3 : r.path_points.length ≤ 3) (t : ℝ) :
    r.catmull_rom_spline t =
      ((r.path_points.getD 0 default).position.x,
       (r.path_points.getD 0 default).position.y) := by
  simp only [Robot.catmull_rom_spline]
  rw [if_pos (by omega), if_neg]
  rw [List.isEmpty_iff]
  intro hnil
  rw [hnil] at h1
  simp at h1

/-- A demonstration robot state: a 2-point path from (0,0) to (3,0). -/
def rC1 : Robot :=
  { position := ⟨0, 0, 0⟩, scale := 1,
    path_points := [⟨⟨0, 0, 0⟩, 0⟩, ⟨⟨3, 0, 0⟩, 0⟩],
    velocity_x := 0, velocity_y := 0, current_path_progress := 0,
    target_speed := 2, follow_path := false, velocity_update_timer := 0 }

/-- Claim C1 as stated is false: for the 2-point path from (0,0) to
(3,0), `catmull_rom_spline` falls into its fewer-than-4-points branch and
returns the FIRST waypoint (0,0) at parameter 1, which is 3 units — far
beyond the source's ε = 0.0001 — away from the last waypoint (3,0). -/
theorem claim_C1_counterexample :
    2 ≤ rC1.path_points.length ∧
    rC1.catmull_rom_spline 1 = (0, 0) ∧
    (rC1.path_points.getD (rC1.path_points.length - 1) default).position.x = 3 ∧
    ¬(|(rC1.catmull_rom_spline 1).1 -
        (rC1.path_points.getD (rC1.path_points.length - 1) default).position.x| < 0.0001 ∧
      |(rC1.catmull_rom_spline 1).2 -
        (rC1.path_points.getD (rC1.path_points.length - 1) default).position.y| < 0.0001) := by
  have hs : rC1.catmull_rom_spline 1 = (0, 0) := by
    simp [Robot.catmull_rom_spline, rC1]
  refine ⟨by simp [rC1], hs, by simp [rC1], ?_⟩
  rw [hs]
  simp only [rC1]
  intro hcontra
  have := hcontra.1
  simp only [List.getD] at this
  norm_num at this

/-- Claim C1, amended: `catmull_rom_spline` never reproduces both path
endpoints.  For a path with at least 4 points, sampling at parameter 0
returns exactly the SECOND waypoint and sampling at parameter 1 returns
exactly the THIRD-FROM-LAST waypoint (index n-3): the first and last
points act only as control points.  For a path of 1 to 3 points, every
parameter returns the first waypoint. -/
theorem claim_C1_amended (r : Robot) :
    (4 ≤ r.path_points.length →
      r.catmull_rom_spline 0 =
        ((r.path_points.getD 1 default).position.x,
         (r.path_points.getD 1 default).position.y) ∧
      r.catmull_rom_spline 1 =
        ((r.path_points.getD (r.path_points.length - 3) default).position.x,
         (r.path_points.getD (r.path_points.length - 3) default).position.y)) ∧
    (1 ≤ r.path_points.length → r.path_points.length ≤ 3 →
      ∀ t, r.catmull_rom_spline t =
        ((r.path_points.getD 0 default).position.x,
         (r.path_points.getD 0 default).position.y)) := by
  constructor
  · intro h4
    constructor
    · simp only [Robot.catmull_rom_spline]
      rw [if_neg (by omega)]
      simp only [zero_mul, Int.floor_zero, Int.toNat_zero, Nat.cast_zero, sub_zero,
        Nat.zero_min, zero_add, Nat.min_eq_left (Nat.zero_le _)]
      rw [catmull_rom_point_zero]
    · simp only [Robot.catmull_rom_spline]
      rw [if_neg (by omega)]
      simp only [one_mul, Int.floor_natCast, Int.toNat_natCast, sub_self]
      have hmin : min (r.path_points.length - 3) (r.path_points.length - 3 - 1) =
          r.path_points.length - 3 - 1 := Nat.min_eq_right (by omega)
      rw [hmin]
      have hidx : r.path_points.length - 3 - 1 + 1 = r.path_points.length - 3 := by omega
      rw [hidx, catmull_rom_point_zero]
  · intro h1 h3 t
    exact spline_const_of_short r h1 h3 t

/-- A demonstration robot state: a 4-point path along the x axis. -/
def rC1w : Robot :=
  { position := ⟨0, 0, 0⟩, scale := 1,
    path_points := [⟨⟨0, 0, 0⟩, 0⟩, ⟨⟨1, 0, 0⟩, 0⟩, ⟨⟨2, 0, 0⟩, 0⟩, ⟨⟨3, 0, 0⟩, 0⟩],
    velocity_x := 0, velocity_y := 0, current_path_progress := 0,
    target_speed := 2, follow_path := false, velocity_update_timer := 0 }

/-- Concrete instantiation of `claim_C1_amended` on the 4-point path
(0,0),(1,0),(2,0),(3,0): both parameter 0 and parameter 1 sample to
(1, 0) — the second waypoint, which for n = 4 is also waypoint n-3. -/
theorem claim_C1_amended_witness :
    4 ≤ rC1w.path_points.length ∧
    rC1w.catmull_rom_spline 0 = (1, 0) ∧ rC1w.catmull_rom_spline 1 = (1, 0) := by
  have h4 : 4 ≤ rC1w.path_points.length := by simp [rC1w]
  obtain ⟨h0, h1⟩ := (claim_C1_amended rC1w).1 h4
  refine ⟨h4, ?_, ?_⟩
  · rw [h0]; simp [rC1w]
  · rw [h1]; simp [rC1w]

/-! ## Claim C2: endpoint preservation by cleaning and pruning -/

lemma head?_eraseIdx_of_pos {α : Type _} (l : List α) (i : ℕ) (h : 0 < i) :
    (l.eraseIdx i).head? = l.head? := by
  rw [List.head?_eq_getElem?, List.head?_eq_getElem?, List.getElem?_eraseIdx, if_pos h]

lemma getLast?_eraseIdx_of_lt {α : Type _} (l : List α) (i : ℕ) (h : i + 1 < l.length) :
    (l.eraseIdx i).getLast? = l.getLast? := by
  rw [List.getLast?_eq_getElem?, List.getLast?_eq_getElem?, List.getElem?_eraseIdx,
    List.length_eraseIdx_of_lt (by omega)]
  rw [if_neg (by omega)]
  congr 1
  omega

/-- Invariant of the `clean_path` scan loop: the head and the last
element are preserved, and the length never drops below
`min pts.length 12`. -/
lemma clean_go_inv (threshold : ℝ) (pts : List PathPoint) (i : ℕ) :
    (clean_go threshold pts i).head? = pts.head? ∧
    (clean_go threshold pts i).getLast? = pts.getLast? ∧
    min pts.length 12 ≤ (clean_go threshold pts i).length := by
  rw [clean_go]
  split_ifs with h1 h2 h3 h4
  · exact ⟨rfl, rfl, by omega⟩
  · exact clean_go_inv threshold pts 1
  · have hlt : i < pts.length := by omega
    have hlen : (pts.eraseIdx i).length = pts.length - 1 := List.length_eraseIdx_of_lt hlt
    have ih := clean_go_inv threshold (pts.eraseIdx i) i
    refine ⟨ih.1.trans (head?_eraseIdx_of_pos pts i (by omega)),
      ih.2.1.trans (getLast?_eraseIdx_of_lt pts i (by omega)), ?_⟩
    have := ih.2.2
    omega
  · exact clean_go_inv threshold pts (i + 1)
  · exact ⟨rfl, rfl, by omega⟩
termination_by pts.length - i
decreasing_by
  · omega
  · have := List.length_eraseIdx_of_lt (show i < pts.length by omega)
    omega
  · omega

/-- The `clean_path` scan only ever removes elements, so its result is a
sublist of its input. -/
lemma clean_go_sublist (threshold : ℝ) (pts : List PathPoint) (i : ℕ) :
    List.Sublist (clean_go threshold pts i) pts := by
  rw [clean_go]
  split_ifs with h1 h2 h3 h4
  · exact List.Sublist.refl pts
  · exact clean_go_sublist threshold pts 1
  · exact (clean_go_sublist threshold (pts.eraseIdx i) i).trans (List.eraseIdx_sublist pts i)
  · exact clean_go_sublist threshold pts (i + 1)
  · exact List.Sublist.refl pts
termination_by pts.length - i
decreasing_by
  · omega
  · have := List.length_eraseIdx_of_lt (show i < pts.length by omega)
    omega
  · omega

/-- The pruner's removal phase only removes elements. -/
lemma remove_marks_sublist (pts : List PathPoint) (marks : List ℕ) :
    List.Sublist (remove_marks pts marks) pts := by
  rw [remove_marks]
  generalize marks.reverse = ms
  induction ms generalizing pts with
  | nil => exact List.Sublist.refl pts
  | cons m ms ih =>
    exact (ih (pts.eraseIdx m)).trans (List.eraseIdx_sublist pts m)

/-- Claim C2 as stated is false on the pruning pass, but the cleaning
half is true, amended: for every path of length at least 2, `clean_path`
never removes the first or the last element and leaves the path with
length at least 2.  `get_points_of_curvature` does not share this
guarantee: its removal window may engulf the first and last elements
(see the counterexample). -/
theorem claim_C2_amended (original_step_distance : ℝ) (pts : List PathPoint)
    (h : 2 ≤ pts.length) :
    (clean_path original_step_distance pts).head? = pts.head? ∧
    (clean_path original_step_distance pts).getLast? = pts.getLast? ∧
    2 ≤ (clean_path original_step_distance pts).length := by
  obtain ⟨h1, h2, h3⟩ := clean_go_inv (original_step_distance * 1.3) pts 1
  exact ⟨h1, h2, by simp only [clean_path]; omega⟩

/-- Concrete instantiation of `claim_C2_amended` on a 2-point path. -/
theorem claim_C2_amended_witness :
    2 ≤ ([⟨⟨0, 0, 0⟩, 0⟩, ⟨⟨3, 0, 0⟩, 0⟩] : List PathPoint).length ∧
    (clean_path 1 [⟨⟨0, 0, 0⟩, 0⟩, ⟨⟨3, 0, 0⟩, 0⟩]).head? =
      ([⟨⟨0, 0, 0⟩, 0⟩, ⟨⟨3, 0, 0⟩, 0⟩] : List PathPoint).head? ∧
    (clean_path 1 [⟨⟨0, 0, 0⟩, 0⟩, ⟨⟨3, 0, 0⟩, 0⟩]).getLast? =
      ([⟨⟨0, 0, 0⟩, 0⟩, ⟨⟨3, 0, 0⟩, 0⟩] : List PathPoint).getLast? ∧
    2 ≤ (clean_path 1 [⟨⟨0, 0, 0⟩, 0⟩, ⟨⟨3, 0, 0⟩, 0⟩]).length := by
  refine ⟨by norm_num, ?_⟩
  exact claim_C2_amended 1 [⟨⟨0, 0, 0⟩, 0⟩, ⟨⟨3, 0, 0⟩, 0⟩] (by norm_num)

/-- Colinearity test evaluates to true for strictly positive x-axis
vectors whose x component is at least the approx-zero epsilon. -/
lemma colin_x_pos (a b : ℝ) (ha : 0.0001 ≤ a) (hb : 0 < b) :
    is_colinear_to_path ⟨b, 0, 0⟩ ⟨a, 0, 0⟩ := by
  have ha0 : (0 : ℝ) < a := by linarith
  simp only [is_colinear_to_path]
  rw [if_neg]
  · simp only [Position.dot, distance_to_def, ORIGIN]
    rw [show (a - 0) ^ 2 + (0 - 0) ^ 2 = a ^ 2 by ring,
      show (b - 0) ^ 2 + (0 - 0) ^ 2 = b ^ 2 by ring,
      Real.sqrt_sq (le_of_lt ha0), Real.sqrt_sq (le_of_lt hb)]
    rw [show a * b + 0 * 0 = a * b by ring, div_self (by positivity)]
    norm_num
  · simp only [Position.approx_equals, ORIGIN]
    intro hc
    have := hc.1
    rw [sub_zero, abs_of_nonneg (le_of_lt ha0)] at this
    linarith

/-- The off-axis vector (2, 0.1, 0) is not colinear with the x-axis
chord (4, 0, 0): its cosine similarity is 2/√4.01 < 0.999999. -/
lemma notcolin_C2 : ¬ is_colinear_to_path ⟨4, 0, 0⟩ ⟨2, 1 / 10, 0⟩ := by
  simp only [is_colinear_to_path]
  rw [if_neg]
  · simp only [Position.dot, distance_to_def, ORIGIN]
    rw [show ((2 : ℝ) - 0) ^ 2 + (1 / 10 - 0) ^ 2 = 4.01 by norm_num,
      show ((4 : ℝ) - 0) ^ 2 + (0 - 0) ^ 2 = 4 ^ 2 by norm_num,
      Real.sqrt_sq (by norm_num)]
    rw [show (2 : ℝ) * 4 + 1 / 10 * 0 = 8 by norm_num]
    intro hgt
    have hs : (2.0000021 : ℝ) < Real.sqrt 4.01 := by
      rw [show (4.01 : ℝ) = 4.01 from rfl]
      have := (Real.lt_sqrt (x := (2.0000021 : ℝ)) (y := 4.01) (by norm_num)).mpr
        (by norm_num)
      exact this
    have hspos : (0 : ℝ) < Real.sqrt 4.01 := by linarith
    have hle : (8 : ℝ) / (Real.sqrt 4.01 * 4) < 8 / (2.0000021 * 4) := by
      apply div_lt_div_of_pos_left (by norm_num) (by norm_num)
      nlinarith
    have : (8 : ℝ) / (2.0000021 * 4) < 0.999999 := by norm_num
    linarith
  · simp only [Position.approx_equals, ORIGIN]
    intro hc
    have := hc.1
    rw [sub_zero] at this
    rw [abs_of_nonneg (by norm_num : (0:ℝ) ≤ 2)] at this
    norm_num at this

/-- The 5-point path used to refute claim C2's statement about the
pruning pass: (0,0), (2,0.1), (2,0), (3,0), (4,0). -/
def ptsC2 : List PathPoint :=
  [⟨⟨0, 0, 0⟩, 0⟩, ⟨⟨2, 1 / 10, 0⟩, 0⟩, ⟨⟨2, 0, 0⟩, 0⟩, ⟨⟨3, 0, 0⟩, 0⟩, ⟨⟨4, 0, 0⟩, 0⟩]

/-- Claim C2 as stated is false for the pruning pass: on the 5-point path
`ptsC2` (robot scale 1), the point at index 2 sits at a transition into
colinear travel, the removal window expands to `remove_count = 2`, and
the marked range `0..=4` covers the whole path — `get_points_of_curvature`
removes every point, the first and last included, leaving a path of
length 0 < 2. -/
theorem claim_C2_counterexample :
    2 ≤ ptsC2.length ∧ get_points_of_curvature 1 ptsC2 = [] := by
  have hlen : ptsC2.length = 5 := rfl
  have f0 : ptsC2[0]? = some ⟨⟨0, 0, 0⟩, 0⟩ := rfl
  have f1 : ptsC2[1]? = some ⟨⟨2, 1 / 10, 0⟩, 0⟩ := rfl
  have f2 : ptsC2[2]? = some ⟨⟨2, 0, 0⟩, 0⟩ := rfl
  have f3 : ptsC2[3]? = some ⟨⟨3, 0, 0⟩, 0⟩ := rfl
  have f4 : ptsC2[4]? = some ⟨⟨4, 0, 0⟩, 0⟩ := rfl
  constructor
  · simp [ptsC2]
  · rw [get_points_of_curvature]
    have hwin : curvature_window ptsC2 ⟨2, 0, 0⟩ (1 / 4) 2 0 1 = 2 := by
      have hd2 : Position.distance_to ⟨2, 1 / 10, 0⟩ ⟨2, 0, 0⟩ = 1 / 10 := by
        rw [distance_to_def,
          show ((2 : ℝ) - 2) ^ 2 + ((1 : ℝ) / 10 - 0) ^ 2 = ((1 : ℝ) / 10) ^ 2 by norm_num]
        exact Real.sqrt_sq (by norm_num)
      rw [curvature_window]
      rw [if_pos (⟨by norm_num, by rw [hlen]; norm_num, by norm_num⟩ :
        (0 : ℝ) < 1 / 4 ∧ 2 + 1 < ptsC2.length ∧ 0 < 2 - 1)]
      norm_num [f1, hd2, hlen]
      rw [curvature_window]
      rw [if_neg]
      intro hcontra
      exact absurd hcontra.2.2 (by norm_num)
    have hmarks : curvature_go ptsC2 1 2 [] = [0, 1, 2, 3, 4] := by
      rw [curvature_go]
      rw [if_pos (show 2 < ptsC2.length - 2 by rw [hlen]; norm_num)]
      norm_num [f0, f1, f2, f3, f4, hlen, Position.minus]
      rw [if_pos (⟨colin_x_pos 2 4 (by norm_num) (by norm_num),
        Or.inr ⟨colin_x_pos 3 4 (by norm_num) (by norm_num), notcolin_C2⟩⟩ :
        is_colinear_to_path ⟨4, 0, 0⟩ ⟨2, 0, 0⟩ ∧
        Xor' (is_colinear_to_path ⟨4, 0, 0⟩ ⟨2, 1 / 10, 0⟩)
          (is_colinear_to_path ⟨4, 0, 0⟩ ⟨3, 0, 0⟩))]
      rw [hwin]
      rw [curvature_go]
      rw [if_neg (by rw [hlen]; decide)]
      rfl
    rw [hmarks]
    rfl

/-! ## Claim C6: follower progress monotonicity and stopping -/

/-- The forward-search loop only ever adds to `ci`. -/
lemma follow_search_ci_ge (r : Robot) (current : ℝ × ℝ) (target_distance : ℝ)
    (d xv yv ci : ℝ) (n : ℕ) :
    ci ≤ (follow_search r current target_distance d xv yv ci n).ci := by
  rw [follow_search]
  split_ifs with h1
  · simp only []
    split_ifs with h2
    · simp only
      linarith
    · exact le_trans (by linarith : ci ≤ ci + 0.001)
        (follow_search_ci_ge r current target_distance _ _ _ (ci + 0.001) (n + 1))
  · exact le_refl ci
termination_by 1000 - n
decreasing_by
  have hn := h1.2
  omega

/-- The velocity computation always consumes a strictly positive
parameter increment `ci`. -/
lemma follow_calc_ci_pos (r : Robot) (dt : ℝ) : 0 < (r.follow_calc dt).ci := by
  rw [Robot.follow_calc]
  split_ifs with h1
  · norm_num
  · rw [follow_search]
    rw [if_pos (⟨by linarith, by norm_num⟩ :
      (0 : ℝ) < r.target_speed * dt ∧ 0 < 1000)]
    simp only []
    split_ifs with h2
    · norm_num
    · refine lt_of_lt_of_le (by norm_num : (0 : ℝ) < 0 + 0.001)
        (follow_search_ci_ge _ _ _ _ _ _ _ _)

/-- Claim C6 (confirmed).  Each call to `follow_path_with_dt` with
`dt ≥ 0` never decreases `current_path_progress` (so progress is
monotone across repeated calls); and whenever the state after the call
has progress ≥ 1 — both when the call was entered with progress ≥ 1 and
when progress reached 1 during the call — the velocity is zero and the
`follow_path` flag is cleared. -/
theorem claim_C6 (r : Robot) (dt : ℝ) (h : 0 ≤ dt) :
    r.current_path_progress ≤ (r.follow_path_with_dt dt).current_path_progress ∧
    (1 ≤ (r.follow_path_with_dt dt).current_path_progress →
      (r.follow_path_with_dt dt).velocity_x = 0 ∧
      (r.follow_path_with_dt dt).velocity_y = 0 ∧
      (r.follow_path_with_dt dt).follow_path = false) := by
  have hci := follow_calc_ci_pos r dt
  rw [Robot.follow_path_with_dt]
  split_ifs with h1 h2
  · exact ⟨le_refl _, fun _ => ⟨rfl, rfl, rfl⟩⟩
  · simp only []
    split_ifs with h3
    · refine ⟨?_, fun _ => ⟨rfl, rfl, rfl⟩⟩
      show r.current_path_progress ≤ 1
      have := not_le.mp h1
      linarith
    · refine ⟨?_, fun hc => ?_⟩
      · show r.current_path_progress ≤ r.current_path_progress + (r.follow_calc dt).ci
        linarith
      · exact absurd hc h3
  · exact ⟨le_refl _, fun hc => absurd hc h1⟩

/-- A demonstration robot state entered with progress already at 1. -/
def rC6w : Robot :=
  { position := ⟨0, 0, 0⟩, scale := 1, path_points := [],
    velocity_x := 5, velocity_y := 5, current_path_progress := 1,
    target_speed := 2, follow_path := true, velocity_update_timer := 0 }

/-- Concrete instantiation of `claim_C6` at `dt = 0.02` on a state
entered with progress 1. -/
theorem claim_C6_witness :
    (0 : ℝ) ≤ 0.02 ∧
    (rC6w.current_path_progress ≤ (rC6w.follow_path_with_dt 0.02).current_path_progress ∧
     (1 ≤ (rC6w.follow_path_with_dt 0.02).current_path_progress →
       (rC6w.follow_path_with_dt 0.02).velocity_x = 0 ∧
       (rC6w.follow_path_with_dt 0.02).velocity_y = 0 ∧
       (rC6w.follow_path_with_dt 0.02).follow_path = false)) :=
  ⟨by norm_num, claim_C6 rC6w 0.02 (by norm_num)⟩

/-! ## Claim C9: short paths give a constant spline and a zero forward
distance in the follower -/

/-- If the spline is constant, the forward-search loop always computes a
zero forward vector and zero distance. -/
lemma follow_search_zero (r : Robot) (cur : ℝ × ℝ) (td d xv yv ci : ℝ) (n : ℕ)
    (hsp : ∀ s, r.catmull_rom_spline s = cur)
    (hx : xv = 0) (hy : yv = 0) (hd : d = 0) :
    (follow_search r cur td d xv yv ci n).xv = 0 ∧
    (follow_search r cur td d xv yv ci n).yv = 0 ∧
    (follow_search r cur td d xv yv ci n).d = 0 := by
  rw [follow_search]
  split_ifs with h1
  · simp only [hsp (r.current_path_progress + (ci + 0.001)), sub_self]
    rw [show (0 : ℝ) * 0 + 0 * 0 = 0 by ring, Real.sqrt_zero]
    split_ifs with h2
    · exact ⟨rfl, rfl, rfl⟩
    · exact follow_search_zero r cur td 0 0 0 (ci + 0.001) (n + 1) hsp rfl rfl rfl
  · exact ⟨hx, hy, hd⟩
termination_by 1000 - n
decreasing_by
  have hn := h1.2
  omega

/-- Claim C9 (confirmed).  For every robot state whose path has between
1 and 3 points, `catmull_rom_spline` returns the first waypoint at every
parameter; consequently a follower step taken with
`velocity_update_timer ≥ 0.02` and `current_path_progress < 1` computes
a forward vector and forward distance of exactly 0, and then executes
`xv /= d`, `yv /= d` with both numerator and denominator exactly 0 — in
`f32` arithmetic, `0.0 / 0.0` sets both velocity components to NaN.
(The exact-real model has no NaN value, so the division-by-zero is
captured by the numerator and denominator both being proved to be 0 at
the executed division.) -/
theorem claim_C9 (r : Robot) (dt t : ℝ) (h1 : 1 ≤ r.path_points.length)
    (h3 : r.path_points.length ≤ 3) :
    r.catmull_rom_spline t =
      ((r.path_points.getD 0 default).position.x,
       (r.path_points.getD 0 default).position.y) ∧
    (0.02 ≤ r.velocity_update_timer → r.current_path_progress < 1 →
      (r.follow_calc dt).xv = 0 ∧ (r.follow_calc dt).yv = 0 ∧
      (r.follow_calc dt).d = 0) := by
  have hsp : ∀ s, r.catmull_rom_spline s =
      ((r.path_points.getD 0 default).position.x,
       (r.path_points.getD 0 default).position.y) :=
    fun s => spline_const_of_short r h1 h3 s
  refine ⟨hsp t, fun _ _ => ?_⟩
  rw [Robot.follow_calc]
  split_ifs with hb
  · simp [hsp r.current_path_progress, hsp (r.current_path_progress + 0.001)]
  · exact follow_search_zero r _ (r.target_speed * dt) 0 0 0 0 0
      (fun s => (hsp s).trans (hsp r.current_path_progress).symm) rfl rfl rfl

/-- A demonstration robot state with a single path point, control timer
at 0.02 and progress 0. -/
def rC9w : Robot :=
  { position := ⟨0, 0, 0⟩, scale := 1, path_points := [⟨⟨0, 0, 0⟩, 0⟩],
    velocity_x := 0, velocity_y := 0, current_path_progress := 0,
    target_speed := 2, follow_path := true, velocity_update_timer := 0.02 }

/-- Concrete instantiation of `claim_C9` on a 1-point path with
`dt = 0`. -/
theorem claim_C9_witness :
    1 ≤ rC9w.path_points.length ∧ rC9w.path_points.length ≤ 3 ∧
    (0.02 : ℝ) ≤ rC9w.velocity_update_timer ∧ rC9w.current_path_progress < 1 ∧
    ((rC9w.follow_calc 0).xv = 0 ∧ (rC9w.follow_calc 0).yv = 0 ∧
      (rC9w.follow_calc 0).d = 0) := by
  refine ⟨by norm_num [rC9w], by norm_num [rC9w], by norm_num [rC9w],
    by norm_num [rC9w], ?_⟩
  exact (claim_C9 rC9w 0 0 (by norm_num [rC9w]) (by norm_num [rC9w])).2
    (by norm_num [rC9w]) (by norm_num [rC9w])

/-! ## Claim C4: what optimize_path zeroes -/

/-- An element read by `getD` from a list of all-zero-z points has zero
z (the default also has zero z). -/
lemma getD_z_zero (pts : List PathPoint) (i : ℕ)
    (h : ∀ p ∈ pts, p.position.z = 0) : (pts.getD i default).position.z = 0 := by
  rcases Nat.lt_or_ge i pts.length with hlt | hge
  · rw [List.getD_eq_getElem pts default hlt]
    exact h _ (List.getElem_mem hlt)
  · rw [List.getD_eq_getElem?_getD, List.getElem?_eq_none (by omega)]
    rfl

/-- The fallback pass's per-point update never touches the z
coordinate. -/
lemma fallback_step_z (obstacles : List Obstacle) (pts : List PathPoint) (i : ℕ)
    (h : ∀ p ∈ pts, p.position.z = 0) :
    ∀ p ∈ fallback_step obstacles pts i, p.position.z = 0 := by
  intro p hp
  rw [fallback_step] at hp
  simp only [] at hp
  split_ifs at hp with h1 h2 h3
  · rcases List.mem_or_eq_of_mem_set hp with hmem | heq
    · exact h p hmem
    · subst heq
      simp only [PathPoint.set_height, Position.move_by]
      rw [getD_z_zero pts i h, add_zero]
  · exact h p hp
  · exact h p hp
  · exact h p hp

/-- The whole fallback pass never touches the z coordinate. -/
lemma fallback_pass_z (obstacles : List Obstacle) (pts : List PathPoint)
    (h : ∀ p ∈ pts, p.position.z = 0) :
    ∀ p ∈ fallback_pass obstacles pts, p.position.z = 0 := by
  rw [fallback_pass]
  generalize List.range' 1 (pts.length - 2) = idxs
  induction idxs generalizing pts with
  | nil => exact h
  | cons j js ih =>
    rw [List.foldl_cons]
    exact ih (fallback_step obstacles pts j) (fallback_step_z obstacles pts j h)

/-- Claim C4 as stated is false — `optimize_path` zeroes the `z`
coordinate of the positions, not the `height` field that stores the
scalar potential.  Amended claim, proved here: after every call to
`optimize_path` on a path with more than 2 points, every path point's
position z-coordinate equals zero (the height field may remain nonzero,
see the counterexample). -/
theorem claim_C4_amended (obstacles : List Obstacle) (pts : List PathPoint)
    (h : 2 < pts.length) :
    ∀ p ∈ (optimize_path obstacles pts).1, p.position.z = 0 := by
  rw [optimize_path]
  rw [if_neg (by omega)]
  simp only []
  intro p hp
  have hz : ∀ q ∈ (optimize_loop obstacles
      ((pts.getD 0 default).position.distance_to (pts.getD 1 default).position)
      pts 0).1.map (fun point =>
        { point with position := { point.position with z := 0 } }),
      q.position.z = 0 := by
    intro q hq
    rw [List.mem_map] at hq
    obtain ⟨q0, _, rfl⟩ := hq
    rfl
  split_ifs at hp with hc
  · exact fallback_pass_z obstacles _ hz p hp
  · exact hz p hp

/-- The 3-point path used for claim C4: its interior point carries a
(converged) nonzero height of 0.0005 ≤ threshold. -/
def ptsC4 : List PathPoint :=
  [⟨⟨0, 0, 0⟩, 0⟩, ⟨⟨1, 0, 0⟩, 0.0005⟩, ⟨⟨2, 0, 0⟩, 0⟩]

/-- Concrete instantiation of `claim_C4_amended` on `ptsC4` with no
obstacles. -/
theorem claim_C4_amended_witness :
    2 < ptsC4.length ∧
    ∀ p ∈ (optimize_path [] ptsC4).1, p.position.z = 0 :=
  ⟨by norm_num [ptsC4], claim_C4_amended [] ptsC4 (by norm_num [ptsC4])⟩

/-- Claim C4 as stated is false: on the 3-point path `ptsC4` whose
interior point has height 0.0005 (below the optimization threshold
0.001, so the optimizer converges after zero iterations), the interior
point's height after `optimize_path` is still 0.0005 ≠ 0 — only the
position's z channel is reset. -/
theorem claim_C4_counterexample :
    (optimize_path [] ptsC4).1.length = 3 ∧
    ((optimize_path [] ptsC4).1.getD 1 default).height = 0.0005 ∧
    (0.0005 : ℝ) ≠ 0 := by
  have hopt : is_path_optimized [] ptsC4 := by
    intro i hi1 hi2
    have hi3 : i + 1 < 3 := by simpa [ptsC4] using hi2
    have hi4 : i < 2 := by omega
    interval_cases i
    refine ⟨?_, by intro o ho; simp at ho⟩
    rw [show ptsC4.getD 1 default = ⟨⟨1, 0, 0⟩, 0.0005⟩ from rfl]
    rw [PathPoint.get_height, PATH_OPTIMIZATION_THRESHOLD]
    norm_num
  have hloop : ∀ osd : ℝ, optimize_loop [] osd ptsC4 0 = (ptsC4, 0) := by
    intro osd
    rw [optimize_loop]
    rw [if_neg (fun hc => hc.1 hopt)]
  have hmap : ptsC4.map (fun point =>
      { point with position := { point.position with z := 0 } }) = ptsC4 := rfl
  have hres : optimize_path [] ptsC4 = (ptsC4, 0) := by
    rw [optimize_path]
    rw [if_neg (by norm_num [ptsC4])]
    simp only []
    rw [hloop, hmap]
    rw [if_neg]
    intro hc
    have := hc.1
    rw [MAX_ITERATIONS] at this
    simp at this
  rw [hres]
  refine ⟨by norm_num [ptsC4], ?_, by norm_num⟩
  rw [show ptsC4.getD 1 default = ⟨⟨1, 0, 0⟩, 0.0005⟩ from rfl]

/-! ## Claim C5: generate_path with no obstacles -/

lemma seed_go_length (dx dy : ℝ) (obstacles : List Obstacle) :
    ∀ (n : ℕ) (prev : PathPoint), (seed_go dx dy obstacles prev n).length = n := by
  intro n
  induction n with
  | zero =>
    intro prev
    rw [seed_go]
    simp
  | succ m ih =>
    intro prev
    rw [seed_go]
    rw [if_neg (Nat.succ_ne_zero m)]
    simp only [List.length_cons]
    rw [show m + 1 - 1 = m from rfl, ih]

lemma seed_go_mem_nil (dx dy : ℝ) :
    ∀ (n : ℕ) (prev p : PathPoint), p ∈ seed_go dx dy [] prev n →
      p.height = 0 ∧ p.position.z = 0 := by
  intro n
  induction n with
  | zero =>
    intro prev p hp
    rw [seed_go] at hp
    simp at hp
  | succ m ih =>
    intro prev p hp
    rw [seed_go] at hp
    rw [if_neg (Nat.succ_ne_zero m)] at hp
    simp only [List.mem_cons, List.foldl_nil] at hp
    rcases hp with rfl | hp
    · exact ⟨rfl, rfl⟩
    · exact ih _ p (by rw [show m + 1 - 1 = m from rfl] at hp; exact hp)

lemma gen_seeded_z (start target : Position) (sc : ℕ) :
    ∀ p ∈ gen_seeded start target sc [], p.position.z = 0 := by
  intro p hp
  rw [gen_seeded] at hp
  simp only [List.mem_cons, List.mem_append, List.mem_singleton] at hp
  rcases hp with rfl | hp | rfl | h0
  · rfl
  · exact (seed_go_mem_nil _ _ _ _ p hp).2
  · rfl
  · exact absurd h0 (List.not_mem_nil p)

lemma gen_seeded_length (start target : Position) (sc : ℕ)
    (obstacles : List Obstacle) :
    (gen_seeded start target sc obstacles).length = sc + 2 := by
  rw [gen_seeded]
  simp [seed_go_length]

lemma gen_seeded_interior_height (start target : Position) (sc : ℕ) :
    ∀ k, 0 < k → k + 1 < (gen_seeded start target sc []).length →
      ((gen_seeded start target sc []).getD k default).height = 0 := by
  intro k hk1 hk2
  rw [gen_seeded_length] at hk2
  rw [gen_seeded]
  obtain ⟨k2, rfl⟩ : ∃ k2, k = k2 + 1 := ⟨k - 1, by omega⟩
  rw [List.getD_cons_succ]
  rw [List.getD_append _ _ _ k2 (by rw [seed_go_length]; omega)]
  have hlt : k2 < (seed_go ((target.x - start.x) / (sc : ℝ))
      ((target.y - start.y) / (sc : ℝ)) [] (PathPoint.from_position start) sc).length := by
    rw [seed_go_length]; omega
  rw [List.getD_eq_getElem _ _ hlt]
  exact (seed_go_mem_nil _ _ _ _ _ (List.getElem_mem hlt)).1

/-- A sublist maps indices rightward: every position j of the sublist
corresponds to a position k ≥ j of the full list holding the same
element, with at least as many elements remaining after k as after j. -/
lemma sublist_getD_map {α : Type _} (d : α) {l1 l2 : List α}
    (h : List.Sublist l1 l2) :
    ∀ j, j < l1.length → ∃ k, k < l2.length ∧ j ≤ k ∧
      l1.length - j ≤ l2.length - k ∧ l1.getD j d = l2.getD k d := by
  induction h with
  | slnil =>
    intro j hj
    simp at hj
  | cons a h ih =>
    intro j hj
    obtain ⟨k, hk, hjk, hlen, heq⟩ := ih j hj
    refine ⟨k + 1, by simp only [List.length_cons]; omega, by omega, ?_, ?_⟩
    · simp only [List.length_cons]
      omega
    · rw [heq, List.getD_cons_succ]
  | cons₂ a h ih =>
    intro j hj
    cases j with
    | zero =>
      refine ⟨0, by simp, le_refl 0, ?_, by rw [List.getD_cons_zero, List.getD_cons_zero]⟩
      have := h.length_le
      simp only [List.length_cons]
      omega
    | succ j2 =>
      obtain ⟨k, hk, hjk, hlen, heq⟩ := ih j2 (by simp only [List.length_cons] at hj; omega)
      refine ⟨k + 1, by simp only [List.length_cons]; omega, by omega, ?_, ?_⟩
      · simp only [List.length_cons]
        omega
      · rw [List.getD_cons_succ, List.getD_cons_succ, heq]

/-- Zeroing the z channel is the identity on a list whose points already
have zero z. -/
lemma map_zero_z_id (l : List PathPoint) (h : ∀ p ∈ l, p.position.z = 0) :
    (l.map fun point => { point with position := { point.position with z := 0 } }) = l := by
  induction l with
  | nil => rfl
  | cons a l ih =>
    rw [List.map_cons, ih (fun p hp => h p (List.mem_cons_of_mem a hp))]
    have ha := h a (List.mem_cons_self a l)
    obtain ⟨⟨ax, ay, az⟩, ah⟩ := a
    have ha2 : az = 0 := ha
    subst ha2
    rfl

/-- On an already-optimized path of all-zero-z points, `optimize_path`
is the identity and performs zero relaxation iterations. -/
lemma optimize_path_of_optimized (obstacles : List Obstacle) (pts : List PathPoint)
    (hopt : is_path_optimized obstacles pts) (hz : ∀ p ∈ pts, p.position.z = 0) :
    optimize_path obstacles pts = (pts, 0) := by
  have hl : ∀ osd : ℝ, optimize_loop obstacles osd pts 0 = (pts, 0) := by
    intro osd
    rw [optimize_loop]
    exact if_neg (fun hc => hc.1 hopt)
  rw [optimize_path]
  split_ifs with hlen
  · rfl
  · simp only []
    rw [hl]
    rw [map_zero_z_id pts hz]
    rw [if_neg (fun hc => absurd hc.1 (by norm_num [MAX_ITERATIONS]))]

/-- Claim C5 as stated is false (the cleaning pass can delete seeded
points, see the counterexample), amended: for every start, target and
positive segment count, `generate_path` with an empty obstacle list
produces a path that is a sublist of the seeded linear interpolation (so
no point is ever moved — every waypoint sits exactly at a seeded
position), every interior point of the produced path has height exactly
0, and the optimizer loop performs zero relaxation iterations. -/
theorem claim_C5_amended (r : Robot) (target : Position) (sc : ℕ) (hsc : 0 < sc) :
    List.Sublist (r.generate_path target sc []).path_points
      (gen_seeded r.position target sc []) ∧
    (∀ k, 0 < k → k + 1 < (r.generate_path target sc []).path_points.length →
      (((r.generate_path target sc []).path_points.getD k default)).height = 0) ∧
    (gen_optimized r.position target sc []).2 = 0 := by
  have hsub1 : List.Sublist (gen_cleaned r.position target sc [])
      (gen_seeded r.position target sc []) := by
    rw [gen_cleaned, clean_path]
    exact clean_go_sublist _ _ _
  have hz : ∀ p ∈ gen_cleaned r.position target sc [], p.position.z = 0 :=
    fun p hp => gen_seeded_z r.position target sc p (hsub1.subset hp)
  have hopt : is_path_optimized [] (gen_cleaned r.position target sc []) := by
    intro i hi1 hi2
    refine ⟨?_, by intro o ho; simp at ho⟩
    obtain ⟨k, hk, hik, hlen, heq⟩ := sublist_getD_map default hsub1 i (by omega)
    have hh := gen_seeded_interior_height r.position target sc k (by omega)
      (by have := hsub1.length_le; omega)
    rw [PathPoint.get_height, heq, hh, PATH_OPTIMIZATION_THRESHOLD]
    norm_num
  have hopt2 : optimize_path [] (gen_cleaned r.position target sc []) =
      (gen_cleaned r.position target sc [], 0) :=
    optimize_path_of_optimized [] _ hopt hz
  have hfin : (r.generate_path target sc []).path_points =
      get_points_of_curvature r.scale (gen_cleaned r.position target sc []) := by
    simp only [Robot.generate_path, gen_optimized, hopt2]
  have hsub2 : List.Sublist (r.generate_path target sc []).path_points
      (gen_seeded r.position target sc []) := by
    rw [hfin, get_points_of_curvature]
    exact (remove_marks_sublist _ _).trans hsub1
  refine ⟨hsub2, ?_, ?_⟩
  · intro k hk1 hk2
    obtain ⟨k2, hk2b, hkk, hlen, heq⟩ := sublist_getD_map default hsub2 k (by omega)
    rw [heq]
    exact gen_seeded_interior_height r.position target sc k2 (by omega)
      (by have := hsub2.length_le; omega)
  · rw [gen_optimized, hopt2]

/-- The demonstration robot for claim C5: at the origin with scale 1 and
no pre-existing path. -/
def rC5 : Robot :=
  { position := ⟨0, 0, 0⟩, scale := 1, path_points := [],
    velocity_x := 0, velocity_y := 0, current_path_progress := 0,
    target_speed := 2, follow_path := false, velocity_update_timer := 0 }

/-- Concrete instantiation of `claim_C5_amended` with one segment toward
(1, 0). -/
theorem claim_C5_amended_witness :
    0 < 1 ∧
    (List.Sublist (rC5.generate_path ⟨1, 0, 0⟩ 1 []).path_points
      (gen_seeded rC5.position ⟨1, 0, 0⟩ 1 []) ∧
    (∀ k, 0 < k → k + 1 < (rC5.generate_path ⟨1, 0, 0⟩ 1 []).path_points.length →
      (((rC5.generate_path ⟨1, 0, 0⟩ 1 []).path_points.getD k default)).height = 0) ∧
    (gen_optimized rC5.position ⟨1, 0, 0⟩ 1 []).2 = 0) :=
  ⟨by norm_num, claim_C5_amended rC5 ⟨1, 0, 0⟩ 1 (by norm_num)⟩

/-- Both branches of an exclusive-or cannot hold at once. -/
lemma xor_both (A B : Prop) (ha : A) (hb : B) : ¬ Xor' A B := fun hx =>
  hx.elim (fun hc => hc.2 hb) (fun hc => hc.2 ha)

/-- With no obstacles, a path whose every point has height at most the
threshold is optimized. -/
lemma is_path_optimized_nil (pts : List PathPoint)
    (h : ∀ p ∈ pts, p.get_height ≤ PATH_OPTIMIZATION_THRESHOLD) :
    is_path_optimized [] pts := by
  intro i hi1 hi2
  refine ⟨?_, by intro o ho; simp at ho⟩
  refine not_lt.mpr ?_
  rw [PathPoint.get_height, ← PathPoint.get_height]
  rw [List.getD_eq_getElem pts default (by omega)]
  exact h _ (List.getElem_mem _)

/-- When the colinearity guard fails at a nonzero index, the pruner's
scan just advances to the next index. -/
lemma curvature_go_skip (pts : List PathPoint) (scale : ℝ) (i0 : ℕ) (marks : List ℕ)
    (hne : i0 ≠ 0)
    (hg : ¬(is_colinear_to_path
        (((pts.getD (pts.length - 1) default).position).minus
          (pts.getD 0 default).position)
        (((pts.getD i0 default).position).minus (pts.getD 0 default).position) ∧
      Xor' (is_colinear_to_path
          (((pts.getD (pts.length - 1) default).position).minus
            (pts.getD 0 default).position)
          (((pts.getD (i0 - 1) default).position).minus (pts.getD 0 default).position))
        (is_colinear_to_path
          (((pts.getD (pts.length - 1) default).position).minus
            (pts.getD 0 default).position)
          (((pts.getD (i0 + 1) default).position).minus (pts.getD 0 default).position)) ∧
      i0 < pts.length - 2)) :
    curvature_go pts scale i0 marks = curvature_go pts scale (i0 + 1) marks := by
  rcases Nat.lt_or_ge i0 (pts.length - 2) with hlt | hge
  · rw [curvature_go, if_pos hlt]
    simp only [if_neg hne]
    rw [if_neg hg]
  · rw [curvature_go, if_neg (by omega), curvature_go, if_neg (by omega)]

/-- The seeded 13-point path for claim C5's counterexample: x from 0 to
11 in unit steps, with the target appended once more at x = 11. -/
def seedC5 : List PathPoint :=
  [⟨⟨0, 0, 0⟩, 0⟩, ⟨⟨1, 0, 0⟩, 0⟩, ⟨⟨2, 0, 0⟩, 0⟩, ⟨⟨3, 0, 0⟩, 0⟩, ⟨⟨4, 0, 0⟩, 0⟩,
   ⟨⟨5, 0, 0⟩, 0⟩, ⟨⟨6, 0, 0⟩, 0⟩, ⟨⟨7, 0, 0⟩, 0⟩, ⟨⟨8, 0, 0⟩, 0⟩, ⟨⟨9, 0, 0⟩, 0⟩,
   ⟨⟨10, 0, 0⟩, 0⟩, ⟨⟨11, 0, 0⟩, 0⟩, ⟨⟨11, 0, 0⟩, 0⟩]

/-- The same path after `clean_path` has removed the point at x = 1. -/
def cleanC5 : List PathPoint :=
  [⟨⟨0, 0, 0⟩, 0⟩, ⟨⟨2, 0, 0⟩, 0⟩, ⟨⟨3, 0, 0⟩, 0⟩, ⟨⟨4, 0, 0⟩, 0⟩,
   ⟨⟨5, 0, 0⟩, 0⟩, ⟨⟨6, 0, 0⟩, 0⟩, ⟨⟨7, 0, 0⟩, 0⟩, ⟨⟨8, 0, 0⟩, 0⟩, ⟨⟨9, 0, 0⟩, 0⟩,
   ⟨⟨10, 0, 0⟩, 0⟩, ⟨⟨11, 0, 0⟩, 0⟩, ⟨⟨11, 0, 0⟩, 0⟩]

/-- Every interior-scan vector of `cleanC5` is colinear with its chord
(11, 0, 0). -/
lemma colin_cleanC5 (k : ℕ) (hk1 : 1 ≤ k) (hk2 : k ≤ 11) :
    is_colinear_to_path
      (((cleanC5.getD (cleanC5.length - 1) default).position).minus
        (cleanC5.getD 0 default).position)
      (((cleanC5.getD k default).position).minus (cleanC5.getD 0 default).position) := by
  have hvp : ((cleanC5.getD (cleanC5.length - 1) default).position).minus
      (cleanC5.getD 0 default).position = (⟨11, 0, 0⟩ : Position) := by
    rw [show cleanC5.length - 1 = 11 from rfl]
    rw [show cleanC5.getD 11 default = ⟨⟨11, 0, 0⟩, 0⟩ from rfl,
      show cleanC5.getD 0 default = ⟨⟨0, 0, 0⟩, 0⟩ from rfl]
    simp [Position.minus]
  rw [hvp]
  interval_cases k <;>
  · norm_num [show cleanC5[1]? = some ⟨⟨2, 0, 0⟩, 0⟩ from rfl,
      show cleanC5[2]? = some ⟨⟨3, 0, 0⟩, 0⟩ from rfl,
      show cleanC5[3]? = some ⟨⟨4, 0, 0⟩, 0⟩ from rfl,
      show cleanC5[4]? = some ⟨⟨5, 0, 0⟩, 0⟩ from rfl,
      show cleanC5[5]? = some ⟨⟨6, 0, 0⟩, 0⟩ from rfl,
      show cleanC5[6]? = some ⟨⟨7, 0, 0⟩, 0⟩ from rfl,
      show cleanC5[7]? = some ⟨⟨8, 0, 0⟩, 0⟩ from rfl,
      show cleanC5[8]? = some ⟨⟨9, 0, 0⟩, 0⟩ from rfl,
      show cleanC5[9]? = some ⟨⟨10, 0, 0⟩, 0⟩ from rfl,
      show cleanC5[10]? = some ⟨⟨11, 0, 0⟩, 0⟩ from rfl,
      show cleanC5[11]? = some ⟨⟨11, 0, 0⟩, 0⟩ from rfl,
      show cleanC5[0]? = some ⟨⟨0, 0, 0⟩, 0⟩ from rfl,
      Position.minus]
    apply colin_x_pos <;> norm_num

set_option maxRecDepth 8000 in
/-- Claim C5 as stated is false: from start (0,0) to target (11,0) with
11 segments and no obstacles, the seeded interpolation has 13 points but
the generated path has only 12 — the seeded point at x = 1 is removed by
`clean_path`, because the uniform unit spacing of the seeded path is
below the cleaning threshold of 1.3 × step.  The generated path is
therefore not "exactly the seeded linear interpolation". -/
theorem claim_C5_counterexample :
    (rC5.generate_path ⟨11, 0, 0⟩ 11 []).path_points.length = 12 ∧
    (gen_seeded rC5.position ⟨11, 0, 0⟩ 11 []).length = 13 ∧
    (12 : ℕ) ≠ 13 := by
  have s0 : seed_go 1 0 [] (⟨⟨11, 0, 0⟩, 0⟩ : PathPoint) 0 = [] := by
    rw [seed_go]
    norm_num
  have s1 : seed_go 1 0 [] (⟨⟨10, 0, 0⟩, 0⟩ : PathPoint) 1 = [⟨⟨11, 0, 0⟩, 0⟩] := by
    rw [seed_go, if_neg (by norm_num)]
    norm_num [PathPoint.new, Position.new, s0]
  have s2 : seed_go 1 0 [] (⟨⟨9, 0, 0⟩, 0⟩ : PathPoint) 2 = [⟨⟨10, 0, 0⟩, 0⟩, ⟨⟨11, 0, 0⟩, 0⟩] := by
    rw [seed_go, if_neg (by norm_num)]
    norm_num [PathPoint.new, Position.new, s1]
  have s3 : seed_go 1 0 [] (⟨⟨8, 0, 0⟩, 0⟩ : PathPoint) 3 = [⟨⟨9, 0, 0⟩, 0⟩, ⟨⟨10, 0, 0⟩, 0⟩, ⟨⟨11, 0, 0⟩, 0⟩] := by
    rw [seed_go, if_neg (by norm_num)]
    norm_num [PathPoint.new, Position.new, s2]
  have s4 : seed_go 1 0 [] (⟨⟨7, 0, 0⟩, 0⟩ : PathPoint) 4 = [⟨⟨8, 0, 0⟩, 0⟩, ⟨⟨9, 0, 0⟩, 0⟩, ⟨⟨10, 0, 0⟩, 0⟩, ⟨⟨11, 0, 0⟩, 0⟩] := by
    rw [seed_go, if_neg (by norm_num)]
    norm_num [PathPoint.new, Position.new, s3]
  have s5 : seed_go 1 0 [] (⟨⟨6, 0, 0⟩, 0⟩ : PathPoint) 5 = [⟨⟨7, 0, 0⟩, 0⟩, ⟨⟨8, 0, 0⟩, 0⟩, ⟨⟨9, 0, 0⟩, 0⟩, ⟨⟨10, 0, 0⟩, 0⟩, ⟨⟨11, 0, 0⟩, 0⟩] := by
    rw [seed_go, if_neg (by norm_num)]
    norm_num [PathPoint.new, Position.new, s4]
  have s6 : seed_go 1 0 [] (⟨⟨5, 0, 0⟩, 0⟩ : PathPoint) 6 = [⟨⟨6, 0, 0⟩, 0⟩, ⟨⟨7, 0, 0⟩, 0⟩, ⟨⟨8, 0, 0⟩, 0⟩, ⟨⟨9, 0, 0⟩, 0⟩, ⟨⟨10, 0, 0⟩, 0⟩, ⟨⟨11, 0, 0⟩, 0⟩] := by
    rw [seed_go, if_neg (by norm_num)]
    norm_num [PathPoint.new, Position.new, s5]
  have s7 : seed_go 1 0 [] (⟨⟨4, 0, 0⟩, 0⟩ : PathPoint) 7 = [⟨⟨5, 0, 0⟩, 0⟩, ⟨⟨6, 0, 0⟩, 0⟩, ⟨⟨7, 0, 0⟩, 0⟩, ⟨⟨8, 0, 0⟩, 0⟩, ⟨⟨9, 0, 0⟩, 0⟩, ⟨⟨10, 0, 0⟩, 0⟩, ⟨⟨11, 0, 0⟩, 0⟩] := by
    rw [seed_go, if_neg (by norm_num)]
    norm_num [PathPoint.new, Position.new, s6]
  have s8 : seed_go 1 0 [] (⟨⟨3, 0, 0⟩, 0⟩ : PathPoint) 8 = [⟨⟨4, 0, 0⟩, 0⟩, ⟨⟨5, 0, 0⟩, 0⟩, ⟨⟨6, 0, 0⟩, 0⟩, ⟨⟨7, 0, 0⟩, 0⟩, ⟨⟨8, 0, 0⟩, 0⟩, ⟨⟨9, 0, 0⟩, 0⟩, ⟨⟨10, 0, 0⟩, 0⟩, ⟨⟨11, 0, 0⟩, 0⟩] := by
    rw [seed_go, if_neg (by norm_num)]
    norm_num [PathPoint.new, Position.new, s7]
  have s9 : seed_go 1 0 [] (⟨⟨2, 0, 0⟩, 0⟩ : PathPoint) 9 = [⟨⟨3, 0, 0⟩, 0⟩, ⟨⟨4, 0, 0⟩, 0⟩, ⟨⟨5, 0, 0⟩, 0⟩, ⟨⟨6, 0, 0⟩, 0⟩, ⟨⟨7, 0, 0⟩, 0⟩, ⟨⟨8, 0, 0⟩, 0⟩, ⟨⟨9, 0, 0⟩, 0⟩, ⟨⟨10, 0, 0⟩, 0⟩, ⟨⟨11, 0, 0⟩, 0⟩] := by
    rw [seed_go, if_neg (by norm_num)]
    norm_num [PathPoint.new, Position.new, s8]
  have s10 : seed_go 1 0 [] (⟨⟨1, 0, 0⟩, 0⟩ : PathPoint) 10 = [⟨⟨2, 0, 0⟩, 0⟩, ⟨⟨3, 0, 0⟩, 0⟩, ⟨⟨4, 0, 0⟩, 0⟩, ⟨⟨5, 0, 0⟩, 0⟩, ⟨⟨6, 0, 0⟩, 0⟩, ⟨⟨7, 0, 0⟩, 0⟩, ⟨⟨8, 0, 0⟩, 0⟩, ⟨⟨9, 0, 0⟩, 0⟩, ⟨⟨10, 0, 0⟩, 0⟩, ⟨⟨11, 0, 0⟩, 0⟩] := by
    rw [seed_go, if_neg (by norm_num)]
    norm_num [PathPoint.new, Position.new, s9]
  have s11 : seed_go 1 0 [] (⟨⟨0, 0, 0⟩, 0⟩ : PathPoint) 11 = [⟨⟨1, 0, 0⟩, 0⟩, ⟨⟨2, 0, 0⟩, 0⟩, ⟨⟨3, 0, 0⟩, 0⟩, ⟨⟨4, 0, 0⟩, 0⟩, ⟨⟨5, 0, 0⟩, 0⟩, ⟨⟨6, 0, 0⟩, 0⟩, ⟨⟨7, 0, 0⟩, 0⟩, ⟨⟨8, 0, 0⟩, 0⟩, ⟨⟨9, 0, 0⟩, 0⟩, ⟨⟨10, 0, 0⟩, 0⟩, ⟨⟨11, 0, 0⟩, 0⟩] := by
    rw [seed_go, if_neg (by norm_num)]
    norm_num [PathPoint.new, Position.new, s10]
  have hseed : gen_seeded rC5.position ⟨11, 0, 0⟩ 11 [] = seedC5 := by
    rw [show rC5.position = (⟨0, 0, 0⟩ : Position) from rfl]
    rw [gen_seeded]
    norm_num [PathPoint.from_position, Position.new, s11, seedC5]
  have hstep : gen_step_distance rC5.position ⟨11, 0, 0⟩ 11 = 1 := by
    rw [show rC5.position = (⟨0, 0, 0⟩ : Position) from rfl]
    rw [gen_step_distance]
    norm_num
  have hd10 : Position.distance_to ⟨1, 0, 0⟩ ⟨0, 0, 0⟩ = 1 := by
    rw [distance_to_def, show ((1 : ℝ) - 0) ^ 2 + ((0 : ℝ) - 0) ^ 2 = 1 by norm_num]
    exact Real.sqrt_one
  have hclean : clean_path 1 seedC5 = cleanC5 := by
    rw [clean_path, clean_go]
    rw [if_pos (show 1 < seedC5.length - 1 by norm_num [seedC5])]
    rw [if_neg (show ¬(seedC5.length ≤ 12) by norm_num [seedC5])]
    rw [if_neg (show ¬(1 = 0) by norm_num)]
    rw [if_pos (show (seedC5.getD 1 default).position.distance_to
        ((seedC5.getD (1 - 1) default).position) < 1 * 1.3 from by
      show Position.distance_to ⟨1, 0, 0⟩ ⟨0, 0, 0⟩ < 1 * 1.3
      rw [hd10]; norm_num)]
    rw [show seedC5.eraseIdx 1 = cleanC5 from rfl]
    rw [clean_go]
    rw [if_pos (show 1 < cleanC5.length - 1 by norm_num [cleanC5])]
    rw [if_pos (show cleanC5.length ≤ 12 by norm_num [cleanC5])]
  have hoptC5 : optimize_path [] cleanC5 = (cleanC5, 0) := by
    refine optimize_path_of_optimized [] cleanC5 (is_path_optimized_nil cleanC5 ?_) ?_
    · intro p hp
      simp only [cleanC5, List.mem_cons, List.not_mem_nil, or_false] at hp
      rcases hp with rfl | rfl | rfl | rfl | rfl | rfl | rfl | rfl | rfl | rfl | rfl | rfl <;>
        norm_num [PathPoint.get_height, PATH_OPTIMIZATION_THRESHOLD]
    · intro p hp
      simp only [cleanC5, List.mem_cons, List.not_mem_nil, or_false] at hp
      rcases hp with rfl | rfl | rfl | rfl | rfl | rfl | rfl | rfl | rfl | rfl | rfl | rfl <;>
        rfl
  have hgo : curvature_go cleanC5 1 2 [] = [] := by
    have hskip : ∀ i0, 2 ≤ i0 → i0 ≤ 9 →
        curvature_go cleanC5 1 i0 [] = curvature_go cleanC5 1 (i0 + 1) [] := by
      intro i0 h2 h9
      refine curvature_go_skip cleanC5 1 i0 [] (by omega) ?_
      intro hc
      exact xor_both _ _ (colin_cleanC5 (i0 - 1) (by omega) (by omega))
        (colin_cleanC5 (i0 + 1) (by omega) (by omega)) hc.2.1
    rw [hskip 2 (by omega) (by omega), show (2 : ℕ) + 1 = 3 from rfl]
    rw [hskip 3 (by omega) (by omega), show (3 : ℕ) + 1 = 4 from rfl]
    rw [hskip 4 (by omega) (by omega), show (4 : ℕ) + 1 = 5 from rfl]
    rw [hskip 5 (by omega) (by omega), show (5 : ℕ) + 1 = 6 from rfl]
    rw [hskip 6 (by omega) (by omega), show (6 : ℕ) + 1 = 7 from rfl]
    rw [hskip 7 (by omega) (by omega), show (7 : ℕ) + 1 = 8 from rfl]
    rw [hskip 8 (by omega) (by omega), show (8 : ℕ) + 1 = 9 from rfl]
    rw [hskip 9 (by omega) (by omega), show (9 : ℕ) + 1 = 10 from rfl]
    rw [curvature_go, if_neg (show ¬(10 < cleanC5.length - 2) by norm_num [cleanC5])]
  have hpr : get_points_of_curvature 1 cleanC5 = cleanC5 := by
    rw [get_points_of_curvature, hgo]
    rfl
  have hfin : (rC5.generate_path ⟨11, 0, 0⟩ 11 []).path_points = cleanC5 := by
    simp only [Robot.generate_path]
    rw [gen_optimized, gen_cleaned, hseed, hstep, hclean, hoptC5]
    rw [show rC5.scale = 1 from rfl]
    rw [show ((cleanC5, 0) : List PathPoint × ℕ).1 = cleanC5 from rfl]
    exact hpr
  refine ⟨?_, ?_, by norm_num⟩
  · rw [hfin]
    rfl
  · rw [hseed]
    rfl

end





